import Mathlib

/-!
Shallow embedding of the convergence-verification harness in
`test_helper/test_helper/test_helper.py` (and the `CommandGuard` copy in
`tests/testscript.py`), together with theorems settling the frozen claims
about it.

Python exceptions are modelled by `Except PyErr`; remote machines are
modelled as explicit state threaded through every remote call; machine
integers are `Int`/`Nat`.
-/

namespace LibvirtTests

/-- Model of a Python exception value: `ValueError`, `RuntimeError`, or an
exception raised with an explicit cause (`raise e1 from e2`). -/
inductive PyErr where
  | valueErr (msg : String)
  | runtimeErr (msg : String)
  | chained (err : PyErr) (cause : PyErr)
deriving Repr, DecidableEq

/-- Whether the (outermost) exception is a `RuntimeError`; `except RuntimeError`
catches exactly these. -/
def PyErr.isRuntimeError : PyErr → Bool
  | .valueErr _ => false
  | .runtimeErr _ => true
  | .chained e _ => e.isRuntimeError

/-- The innermost exception along the `from` chain. -/
def PyErr.rootCause : PyErr → PyErr
  | .valueErr m => .valueErr m
  | .runtimeErr m => .runtimeErr m
  | .chained _ c => c.rootCause

/-- The error raised by `wait_until_succeed` when the retry budget is
exhausted: `RuntimeError("function didn't succeed")`. -/
def timeoutSucceedErr : PyErr := .runtimeErr "function did not succeed"

/-- The error raised by `wait_until_fail` when the retry budget is
exhausted: `RuntimeError("function didn't fail")`. -/
def timeoutFailErr : PyErr := .runtimeErr "function did not fail"

/-- Outcome of one run of a polling loop: the Python return value or raised
exception, the machine state afterwards, the number of times the predicate
was evaluated, and the number of `time.sleep` calls performed. -/
structure WaitRun (σ : Type) where
  result : Except PyErr Unit
  state : σ
  evals : Nat
  sleeps : Nat
deriving Repr

/-- `wait_until_succeed(func, retries)`: evaluate the predicate up to
`retries` times, sleeping 100 ms after each failed evaluation, returning as
soon as it yields true and raising `RuntimeError` when the budget is
exhausted.  A predicate is a state transformer that may itself raise; an
exception raised by the predicate propagates out of the loop unchanged. -/
def wait_until_succeed {σ : Type} (pred : σ → Except PyErr Bool × σ) :
    Nat → σ → WaitRun σ
  | 0, s => ⟨.error timeoutSucceedErr, s, 0, 0⟩
  | n + 1, s =>
    match pred s with
    | (.error e, s1) => ⟨.error e, s1, 1, 0⟩
    | (.ok true, s1) => ⟨.ok (), s1, 1, 0⟩
    | (.ok false, s1) =>
      let r := wait_until_succeed pred n s1
      ⟨r.result, r.state, r.evals + 1, r.sleeps + 1⟩

/-- `wait_until_fail(func, retries)`: the logical dual, returning as soon as
the predicate yields false. -/
def wait_until_fail {σ : Type} (pred : σ → Except PyErr Bool × σ) :
    Nat → σ → WaitRun σ
  | 0, s => ⟨.error timeoutFailErr, s, 0, 0⟩
  | n + 1, s =>
    match pred s with
    | (.error e, s1) => ⟨.error e, s1, 1, 0⟩
    | (.ok false, s1) => ⟨.ok (), s1, 1, 0⟩
    | (.ok true, s1) =>
      let r := wait_until_fail pred n s1
      ⟨r.result, r.state, r.evals + 1, r.sleeps + 1⟩

/-! ## The remote machine interface

`Machine.execute`/`succeed`/`fail` and the `lspci`-based device queries are
the only ways the hotplug verifier touches the outside world.  They are
modelled as an abstract state machine: `numberOfDevices` performs the
`lspci | wc -l` query of `number_of_devices` and `runCommand` executes a
shell command, returning whether it exited with status 0. -/

structure MachineModel (σ : Type) where
  numberOfDevices : σ → Int × σ
  runCommand : String → σ → Bool × σ

/-- A remote interaction performed by the harness: a device-count query or
the execution of a shell command. -/
inductive RemoteEvent where
  | query
  | run (cmd : String)
deriving Repr, DecidableEq

/-- Outcome of one `hotplug` call: Python result, machine state afterwards,
and the sequence of remote interactions that were performed. -/
structure HotplugRun (σ : Type) where
  result : Except PyErr Unit
  state : σ
  events : List RemoteEvent

/-- Python `str.startswith(pre)`: the characters of `pre` are a prefix of
the characters of `s`. -/
def pyStartsWith (s pre : String) : Bool :=
  List.isPrefixOf pre.data s.data

/-- The prefix classification at the top of `hotplug`:
`cmd.startswith("virsh attach-")` gives an attach, else
`cmd.startswith("virsh detach-")` gives a detach, else the command is
unrecognized. -/
def classify (cmd : String) : Option Bool :=
  if pyStartsWith cmd "virsh attach-" then some true
  else if pyStartsWith cmd "virsh detach-" then some false
  else none

/-- `hotplug(machine, cmd, expect_success)`: classify the command, record
`num_old = number_of_devices(machine)`, execute the command asserting
success or failure per `expect_success`, compute the expected device count
(attach+success: `num_old+1`; attach+failure: `num_old`; detach+success:
`num_old-1`; detach+failure: `num_old`), then delegate to
`wait_for_guest_pci_device_enumeration`, i.e. poll
`number_of_devices(machine) == expected` via `wait_until_succeed` with a
budget of 20 attempts. -/
def hotplugGo {σ : Type} (M : MachineModel σ) (cmd : String)
    (is_attach expect_success : Bool) (s : σ) : HotplugRun σ :=
  let q := M.numberOfDevices s
  let num_old := q.1
  let c := M.runCommand cmd q.2
  if c.1 = expect_success then
    let num_new_expected : Int :=
      if is_attach then (if expect_success then num_old + 1 else num_old)
      else (if expect_success then num_old - 1 else num_old)
    let wr := wait_until_succeed
      (fun t =>
        let q2 := M.numberOfDevices t
        (Except.ok (decide (q2.1 = num_new_expected)), q2.2)) 20 c.2
    ⟨wr.result, wr.state,
      RemoteEvent.query :: RemoteEvent.run cmd
        :: List.replicate wr.evals RemoteEvent.query⟩
  else
    ⟨.error (.runtimeErr ("command assertion violated: " ++ cmd)), c.2,
      [RemoteEvent.query, RemoteEvent.run cmd]⟩

def hotplug {σ : Type} (M : MachineModel σ) (cmd : String)
    (expect_success : Bool) (s : σ) : HotplugRun σ :=
  match classify cmd with
  | none =>
    ⟨.error (.runtimeErr
        ("command is neither `virsh attach-*` nor `virsh detach-*`: `"
          ++ cmd ++ "`")), s, []⟩
  | some is_attach => hotplugGo M cmd is_attach expect_success s

/-- A machine whose successive `number_of_devices` queries return the values
of an arbitrary oracle `counts` (the state is the index of the next query)
and whose commands all exit with status `cmdOk`. -/
def oracleMachine (counts : Nat → Int) (cmdOk : Bool) : MachineModel Nat where
  numberOfDevices := fun s => (counts s, s + 1)
  runCommand := fun _ s => (cmdOk, s)

/-! ## CommandGuard

`CommandGuard.__init__` registers `weakref.finalize(self, command, machine)`;
`__exit__` calls the finalizer.  A `weakref.finalize` object calls its
callback at most once: calling it again, or the garbage collector running it
after it was already called, is a no-op.  The cleanup action is modelled as a
state transformer on the machine; `alive` is the finalizer's internal
"not yet called" flag. -/

structure CommandGuard (σ : Type) where
  command : σ → σ
  machine : σ
  alive : Bool

/-- `CommandGuard.__init__`: the finalizer is registered and still alive. -/
def CommandGuard.init {σ : Type} (command : σ → σ) (machine : σ) :
    CommandGuard σ :=
  ⟨command, machine, true⟩

/-- Calling the `weakref.finalize` object: runs `command machine` and counts
one execution if the finalizer is still alive, and is inert otherwise. -/
def finalizeGuard {σ : Type} (g : CommandGuard σ) (runs : Nat) :
    CommandGuard σ × Nat :=
  if g.alive then (⟨g.command, g.command g.machine, false⟩, runs + 1)
  else (g, runs)

/-- How the body of a `with CommandGuard(...)` scope ended. -/
inductive BodyOutcome where
  | normal
  | raised (e : PyErr)

/-- Executing `with CommandGuard(command, machine): body` to the end of the
enclosing scope: construct the guard, run the body (which ends normally or
with an exception), run `__exit__` — which Python executes on every exit
path of a `with` block — and finally let the garbage collector run the
`weakref.finalize` callback once the guard object is unreachable.  Returns
the body outcome, the final machine state, and how often the cleanup action
actually executed. -/
def withCommandGuard {σ : Type} (command : σ → σ) (machine : σ)
    (body : BodyOutcome) : BodyOutcome × σ × Nat :=
  let g := CommandGuard.init command machine
  let ex := finalizeGuard g 0
  let gc := finalizeGuard ex.1 ex.2
  (body, gc.1.machine, gc.2)

/-! ## The PCI device snapshot pipeline (`pci_devices_by_bdf`)

The remote side runs
`lspci -n | awk '/^[0-9a-f]{2}:[0-9a-f]{2}\.[0-9]/{bdf=$1}{class=$3} {print bdf "," class}'`
and the Python side splits every returned line on `","` and inserts the two
halves into a dict.  Lines are modelled as `List Char`. -/

/-- Python `str.split(sep)` for a one-character separator: `"" ↦ [""]`. -/
def splitOnChar (sep : Char) : List Char → List (List Char)
  | [] => [[]]
  | c :: cs =>
    let r := splitOnChar sep cs
    if c = sep then [] :: r
    else
      match r with
      | h :: t => (c :: h) :: t
      | [] => [[c]]

/-- A character of the awk character class `[0-9a-f]`. -/
def isHexLower (c : Char) : Bool :=
  c.isDigit || ('a' ≤ c && c ≤ 'f')

/-- The awk address pattern `/^[0-9a-f]{2}:[0-9a-f]{2}\.[0-9]/`: the line
starts with two hex digits, a colon, two hex digits, a dot and a digit. -/
def matchesBDF : List Char → Bool
  | c0 :: c1 :: c2 :: c3 :: c4 :: c5 :: c6 :: _ =>
    isHexLower c0 && isHexLower c1 && (c2 = ':') && isHexLower c3 &&
      isHexLower c4 && (c5 = '.') && c6.isDigit
  | _ => false

/-- Awk field splitting: fields are the maximal nonempty runs between
whitespace. -/
def awkFields (line : List Char) : List (List Char) :=
  (splitOnChar ' ' line).filter (fun f => f ≠ [])

/-- One awk input line.  The state is the pair of awk variables
`(bdf, class)` (both initially the empty string); the result pairs the new
state with the printed output line `bdf "," class`. -/
def awkLine (st : List Char × List Char) (line : List Char) :
    (List Char × List Char) × List Char :=
  let fields := awkFields line
  let bdf := if matchesBDF line then fields.getD 0 [] else st.1
  let cls := fields.getD 2 []
  ((bdf, cls), bdf ++ ',' :: cls)

/-- The full awk program applied to the `lspci -n` output lines. -/
def awkRun (st : List Char × List Char) : List (List Char) → List (List Char)
  | [] => []
  | l :: ls =>
    let r := awkLine st l
    r.2 :: awkRun r.1 ls

/-- Python `bdf, device_class = line.split(",")`: raises `ValueError` unless
the line splits into exactly two parts. -/
def splitLine2 (line : List Char) : Except PyErr (List Char × List Char) :=
  match splitOnChar ',' line with
  | [a, b] => .ok (a, b)
  | _ => .error (.valueErr "not enough values to unpack")

/-- Python dict assignment `d[k] = v` on a dict represented as an insertion
ordered association list: overwrite in place, or append a new key. -/
def dictInsert {α β : Type} [DecidableEq α] (d : List (α × β)) (k : α)
    (v : β) : List (α × β) :=
  if d.any (fun p => p.1 = k) then
    d.map (fun p => if p.1 = k then (k, v) else p)
  else d ++ [(k, v)]

/-- The Python loop of `pci_devices_by_bdf` over the awk output lines. -/
def pyBuildDict (d : List (List Char × List Char)) :
    List (List Char) → Except PyErr (List (List Char × List Char))
  | [] => .ok d
  | l :: ls =>
    match splitLine2 l with
    | .error e => .error e
    | .ok bc => pyBuildDict (dictInsert d bc.1 bc.2) ls

/-- `pci_devices_by_bdf(machine)` as a function of the raw `lspci -n` output
lines produced on the guest: awk renders each line as `<bdf>,<class>`, then
Python folds the rendered lines into a dict. -/
def pci_devices_by_bdf (lspciLines : List (List Char)) :
    Except PyErr (List (List Char × List Char)) :=
  pyBuildDict [] (awkRun ([], []) lspciLines)

/-- The snapshot the pipeline actually computes, written as direct structural
recursion: every input line — whether or not it carries a BDF of its own —
contributes an entry keyed by the most recently seen BDF (its own first
field when the line matches the address pattern, the carried one otherwise,
the empty string before any match), with the line's third field as value. -/
def snapshotRef (bdf : List Char) :
    List (List Char) → List (List Char × List Char) →
      List (List Char × List Char)
  | [], d => d
  | l :: ls, d =>
    let b := if matchesBDF l then (awkFields l).getD 0 [] else bdf
    snapshotRef b ls (dictInsert d b ((awkFields l).getD 2 []))

/-! ## IPv4 addresses and the network convergence checker -/

/-- A parsed IPv4 address, four octets. -/
structure IPv4 where
  a : Nat
  b : Nat
  c : Nat
  d : Nat
deriving Repr, DecidableEq

/-- One dotted-quad octet, per the stdlib `ipaddress` parser: nonempty, all
ASCII digits, at most three characters, no leading zero, value at most
255. -/
def parseOctet (cs : List Char) : Option Nat :=
  match cs with
  | [] => none
  | c :: rest =>
    if !(cs.all (fun ch => ch.isDigit)) then none
    else if 3 < cs.length then none
    else if rest ≠ [] && c = '0' then none
    else
      let n := cs.foldl (fun n ch => 10 * n + (ch.toNat - 48)) 0
      if 255 < n then none else some n

/-- `ipaddress.IPv4Address(s)` / the address part of `IPv4Network`: split on
dots into exactly four valid octets. -/
def parseIPv4 (s : String) : Option IPv4 :=
  match splitOnChar '.' s.data with
  | [oa, ob, oc, od] =>
    match parseOctet oa, parseOctet ob, parseOctet oc, parseOctet od with
    | some a, some b, some c, some d => some ⟨a, b, c, d⟩
    | _, _, _, _ => none
  | _ => none

/-- `IPv4Address.exploded`: the dotted-quad decimal rendering. -/
def exploded (t : IPv4) : String :=
  toString t.a ++ "." ++ toString t.b ++ "." ++ toString t.c ++ "."
    ++ toString t.d

/-- `IPv4Address.is_private`: membership in one of the stdlib's private
networks (0.0.0.0/8, 10.0.0.0/8, 127.0.0.0/8, 169.254.0.0/16, 172.16.0.0/12,
192.0.0.0/29, 192.0.0.170/31, 192.0.2.0/24, 192.168.0.0/16, 198.18.0.0/15,
198.51.100.0/24, 203.0.113.0/24, 240.0.0.0/4, 255.255.255.255/32). -/
def is_private (t : IPv4) : Bool :=
  (t.a = 0) || (t.a = 10) || (t.a = 127) || (t.a = 169 && t.b = 254) ||
  (t.a = 172 && 16 ≤ t.b && t.b ≤ 31) ||
  (t.a = 192 && t.b = 0 && t.c = 0 && t.d ≤ 7) ||
  (t.a = 192 && t.b = 0 && t.c = 0 && (t.d = 170 || t.d = 171)) ||
  (t.a = 192 && t.b = 0 && t.c = 2) ||
  (t.a = 192 && t.b = 168) ||
  (t.a = 198 && (t.b = 18 || t.b = 19)) ||
  (t.a = 198 && t.b = 51 && t.c = 100) ||
  (t.a = 203 && t.b = 0 && t.c = 113) ||
  (240 ≤ t.a)

/-- `target.exploded.startswith("192.168.")`. -/
def explodedIs192168 (t : IPv4) : Bool :=
  pyStartsWith (exploded t) "192.168."

/-- "A valid private 192.168.x.x IPv4 address": the string parses and the
parsed address is private and renders with the `192.168.` prefix. -/
def validPrivate192168 (ip : String) : Bool :=
  match parseIPv4 ip with
  | none => false
  | some t => is_private t && explodedIs192168 t

/-- A JSON value as returned by `json.loads` on `ip -j a` output. -/
inductive JVal where
  | str (s : String)
  | num (n : Int)
  | bool (b : Bool)
  | null
  | arr (xs : List JVal)
  | obj (kvs : List (String × JVal))

/-- Python `dict.get(k)`: `None` when the key is absent. -/
def jGet (v : JVal) (k : String) : Option JVal :=
  match v with
  | .obj kvs => (kvs.find? (fun p => p.1 = k)).map (fun p => p.2)
  | _ => none

/-- A /24 network inside 192.168.0.0/16 is determined by its first three
octets. -/
structure Net24 where
  a : Nat
  b : Nat
  c : Nat
deriving Repr, DecidableEq

/-- Sort key: networks compare by their (32-bit) network address. -/
def net24Key (n : Net24) : Nat :=
  n.a * 65536 + n.b * 256 + n.c

/-- The per-entry filter of `get_local_192_168_net24_networks`: an
`addr_info` entry passes when `family == "inet"`, its `local` value is a
string, and its `prefixlen` value is the integer 24; the result is its
`local` string. -/
def addrMatches (ad : JVal) : Option String :=
  match jGet ad "family", jGet ad "local", jGet ad "prefixlen" with
  | some (.str fam), some (.str s), some (.num p) =>
    if fam = "inet" && p = 24 then some s else none
  | _, _, _ => none

/-- The inner loop of `get_local_192_168_net24_networks` over one
interface's `addr_info` entries: for each passing entry, build the `/24`
network of its `local` address (host bits masked off) and keep it when it
lies inside 192.168.0.0/16.  A `local` string the `ipaddress` parser
rejects raises `ValueError`. -/
def collectAddrNets : List JVal → Except PyErr (List Net24)
  | [] => .ok []
  | ad :: rest =>
    match addrMatches ad with
    | none => collectAddrNets rest
    | some s =>
      match parseIPv4 s with
      | none =>
        .error (.valueErr
          (s ++ "/24 does not appear to be an IPv4 or IPv6 network"))
      | some t =>
        match collectAddrNets rest with
        | .error e => .error e
        | .ok ns =>
          if t.a = 192 && t.b = 168 then .ok (⟨t.a, t.b, t.c⟩ :: ns)
          else .ok ns

/-- The `addr_info` list of one interface object; entries whose `addr_info`
is missing or not a list contribute nothing. -/
def ifaceAddrs (iface : JVal) : List JVal :=
  match jGet iface "addr_info" with
  | some (.arr xs) => xs
  | _ => []

/-- The outer loop over the interface objects. -/
def collectNets : List JVal → Except PyErr (List Net24)
  | [] => .ok []
  | iface :: rest =>
    match collectAddrNets (ifaceAddrs iface) with
    | .error e => .error e
    | .ok here =>
      match collectNets rest with
      | .error e => .error e
      | .ok more => .ok (here ++ more)

/-- `get_local_192_168_net24_networks(machine)` as a function of the decoded
`ip -j a` listing: collect the matching /24 networks and return them
sorted. -/
def get_local_192_168_net24_networks (interfaces : List JVal) :
    Except PyErr (List Net24) :=
  match collectNets interfaces with
  | .error e => .error e
  | .ok ns => .ok (ns.insertionSort (fun x y => net24Key x ≤ net24Key y))

/-- `ip_in_local_192_168_net24(machine, ip)`: parse the target address
(`ValueError` when malformed), raise `RuntimeError("invalid IP: ...")` when
it is not private or does not start with `192.168.`, and only then query the
machine's interfaces and test membership in the local /24 networks.  The
machine's `ip -j a` query is the state transformer `ipj`. -/
def ip_in_local_192_168_net24 {σ : Type} (ipj : σ → List JVal × σ)
    (ip : String) (s : σ) : Except PyErr Bool × σ :=
  match parseIPv4 ip with
  | none =>
    (.error (.valueErr
      (ip ++ " does not appear to be an IPv4 or IPv6 address")), s)
  | some t =>
    if !(is_private t) || !(explodedIs192168 t) then
      (.error (.runtimeErr ("invalid IP: " ++ ip ++ " / " ++ exploded t)), s)
    else
      let q := ipj s
      match get_local_192_168_net24_networks q.1 with
      | .error e => (.error e, q.2)
      | .ok networks =>
        (.ok (networks.any (fun n => n.a = t.a && n.b = t.b && n.c = t.c)),
          q.2)

/-- The error with which `ip_in_local_192_168_net24` rejects a target
address that is not a valid private 192.168.x.x address: the parser's
`ValueError` for a malformed string, the guard's `RuntimeError` for a
parsed address outside the private 192.168.0.0/16 range. -/
def invalidAddressErr (ip : String) : PyErr :=
  match parseIPv4 ip with
  | none => .valueErr (ip ++ " does not appear to be an IPv4 or IPv6 address")
  | some t => .runtimeErr ("invalid IP: " ++ ip ++ " / " ++ exploded t)

/-- `wait_for_host_shares_ipv4_network(machine, ip, retries)`: run
`wait_until_succeed` on `ip_in_local_192_168_net24`; a `RuntimeError`
escaping the wait is caught, the diagnostic `ip a` command (`execIpA`) is
run, and a new `RuntimeError` naming the target is raised from the original
one.  Exceptions that are not `RuntimeError` propagate unchanged. -/
def wait_for_host_shares_ipv4_network {σ : Type} (ipj : σ → List JVal × σ)
    (execIpA : σ → σ) (ip : String) (retries : Nat) (s : σ) : WaitRun σ :=
  let wr := wait_until_succeed (fun t => ip_in_local_192_168_net24 ipj ip t)
    retries s
  match wr.result with
  | .ok _ => wr
  | .error e =>
    if e.isRuntimeError then
      ⟨.error (.chained
          (.runtimeErr
            ("Host does not have an IP in the same IPv4 network as " ++ ip))
          e),
        execIpA wr.state, wr.evals, wr.sleeps⟩
    else wr

/-! ## BDF bookkeeping: `parse_devices_from_dom_def` -/

/-- An XML element as seen through `xml.etree.ElementTree`: tag, attribute
dict, text, and child elements. -/
inductive XmlNode where
  | elem (tag : String) (attrs : List (String × String)) (text : Option String)
      (children : List XmlNode)

def XmlNode.tag : XmlNode → String
  | .elem t _ _ _ => t

def XmlNode.attrs : XmlNode → List (String × String)
  | .elem _ a _ _ => a

def XmlNode.text : XmlNode → Option String
  | .elem _ _ tx _ => tx

def XmlNode.children : XmlNode → List XmlNode
  | .elem _ _ _ ch => ch

mutual

/-- One element of the `.//tag` search: the element itself, else its
subtree in document order. -/
def findDescNode (t : String) : XmlNode → Option XmlNode
  | XmlNode.elem tg a tx ch =>
    if tg = t then some (XmlNode.elem tg a tx ch) else findDescList t ch

/-- `root.find(".//tag")` over a forest: the first element with the given
tag in document (preorder) order. -/
def findDescList (t : String) : List XmlNode → Option XmlNode
  | [] => none
  | c :: cs =>
    match findDescNode t c with
    | some r => some r
    | none => findDescList t cs

end

/-- `element.find("tag")`: the first direct child with the given tag. -/
def findChild (n : XmlNode) (t : String) : Option XmlNode :=
  n.children.find? (fun c => c.tag = t)

/-- `element.get(key)`. -/
def getAttr (n : XmlNode) (k : String) : Option String :=
  (n.attrs.find? (fun p => p.1 = k)).map (fun p => p.2)

/-- `element.get(key, default)`. -/
def getAttrD (n : XmlNode) (k d : String) : String :=
  (getAttr n k).getD d

/-- Python `str.strip()`: drop leading and trailing whitespace. -/
def pyStrip (s : String) : String :=
  String.mk (((s.data.dropWhile Char.isWhitespace).reverse.dropWhile
    Char.isWhitespace).reverse)

/-- The identity string `parse_devices_from_dom_def` builds for one device
element: the tag, extended per device type — disk: `source`'s `file` and
`target`'s `dev`; interface: the `type` attribute, `mac`'s `address` and
`target`'s `dev`; rng: the `backend` element's text. -/
def deviceIdentity (device : XmlNode) : String :=
  let value := device.tag
  match device.tag with
  | "disk" =>
    let v1 :=
      match findChild device "source" with
      | some source => value ++ ":" ++ pyStrip (getAttrD source "file" "")
      | none => value
    (match findChild device "target" with
      | some target => v1 ++ ":" ++ pyStrip (getAttrD target "dev" "")
      | none => v1)
  | "interface" =>
    let v1 := value ++ ":" ++ getAttrD device "type" ""
    let v2 :=
      match findChild device "mac" with
      | some mac => v1 ++ ":" ++ getAttrD mac "address" ""
      | none => v1
    (match findChild device "target" with
      | some target => v2 ++ ":" ++ pyStrip (getAttrD target "dev" "")
      | none => v2)
  | "rng" =>
    (match findChild device "backend" with
      | some backend => value ++ ":" ++ pyStrip (backend.text.getD "")
      | none => value)
  | _ => value

/-- The PCI slot under which a device is recorded: its `address` child must
exist, have `type="pci"`, and a nonempty `slot` attribute; otherwise the
device is skipped. -/
def pciSlot (device : XmlNode) : Option String :=
  match findChild device "address" with
  | none => none
  | some address =>
    if getAttr address "type" = some "pci" then
      let slot := (getAttr address "slot").getD ""
      if slot = "" then none else some slot
    else none

/-- The loop of `parse_devices_from_dom_def` over the children of the
`devices` element, building the slot-to-identity dict. -/
def parseDeviceList (d : List (String × String)) :
    List XmlNode → List (String × String)
  | [] => d
  | device :: rest =>
    match pciSlot device with
    | some slot =>
      parseDeviceList (dictInsert d slot (pyStrip (deviceIdentity device))) rest
    | none => parseDeviceList d rest

/-- The children of the first `devices` descendant of the root (direct child
in the persistent document, one level deeper in the transient one); the
empty list when no `devices` element exists. -/
def devicesChildren (root : XmlNode) : List XmlNode :=
  match findDescList "devices" root.children with
  | some devs => devs.children
  | none => []

/-- `parse_devices_from_dom_def(machine, path)` as a function of the parsed
domain-definition document. -/
def parse_devices_from_dom_def (root : XmlNode) : List (String × String) :=
  parseDeviceList [] (devicesChildren root)

/-! ## Concrete inputs used by witnesses and counterexamples -/

instance {ε α : Type} [DecidableEq ε] [DecidableEq α] :
    DecidableEq (Except ε α) := fun x y =>
  match x, y with
  | .ok a, .ok b =>
    if h : a = b then isTrue (by rw [h])
    else isFalse (fun hh => by cases hh; exact h rfl)
  | .error a, .error b =>
    if h : a = b then isTrue (by rw [h])
    else isFalse (fun hh => by cases hh; exact h rfl)
  | .ok _, .error _ => isFalse (fun hh => by cases hh)
  | .error _, .ok _ => isFalse (fun hh => by cases hh)

/-- Device-count oracle for the hotplug witness: 3 devices before the
command, 4 afterwards. -/
def cfWit : Nat → Int := fun n => if n = 0 then 3 else 4

/-- A well-formed `lspci -n` line. -/
def cexL1 : List Char := "00:01.0 0200: 1af4:1041".data

/-- An enumeration-noise line lacking a recognizable BDF prefix. -/
def cexL2 : List Char := "garbage noise here".data

/-- A deterministic guest for the round-trip witness: the state is the
device count itself, attach commands add a device, detach commands remove
one, and every command exits with status 0. -/
def guestMachine : MachineModel Int where
  numberOfDevices := fun c => (c, c)
  runCommand := fun cmd c =>
    if pyStartsWith cmd "virsh attach-" then (true, c + 1)
    else if pyStartsWith cmd "virsh detach-" then (true, c - 1)
    else (false, c)

/-- Interface listing for the network witness: one interface carrying
`192.168.1.5/24` and `10.0.0.5/24`. -/
def ifsWit : List JVal :=
  [JVal.obj [("ifname", JVal.str "eth0"),
    ("addr_info", JVal.arr [
      JVal.obj [("family", JVal.str "inet"),
        ("local", JVal.str "192.168.1.5"), ("prefixlen", JVal.num 24)],
      JVal.obj [("family", JVal.str "inet"),
        ("local", JVal.str "10.0.0.5"), ("prefixlen", JVal.num 24)]])]]

/-- A domain definition with a disk, an entropy source, an interface, and a
device lacking a PCI address. -/
def rootWit : XmlNode :=
  .elem "domain" [] none [.elem "devices" [] none [
    .elem "disk" [] none [
      .elem "source" [("file", " /nfs/img ")] none [],
      .elem "target" [("dev", "vdb")] none [],
      .elem "address" [("type", "pci"), ("slot", "0x05")] none []],
    .elem "rng" [] none [
      .elem "backend" [] (some " /dev/urandom ") [],
      .elem "address" [("type", "pci"), ("slot", "0x06")] none []],
    .elem "interface" [("type", "ethernet")] none [
      .elem "mac" [("address", "52:54:00:aa:bb:cc")] none [],
      .elem "target" [("dev", "tap0")] none [],
      .elem "address" [("type", "pci"), ("slot", "0x03")] none []],
    .elem "disk" [] none []]]

/-! ## Helper lemmas about the polling loops -/

theorem wait_until_succeed_always_false {σ : Type}
    (pred : σ → Except PyErr Bool × σ)
    (hp : ∀ s, (pred s).1 = Except.ok false) :
    ∀ (n : Nat) (s : σ),
      (wait_until_succeed pred n s).result = Except.error timeoutSucceedErr ∧
        (wait_until_succeed pred n s).evals = n := by
  intro n
  induction n with
  | zero => intro s; exact ⟨rfl, rfl⟩
  | succ m ih =>
    intro s
    have h := hp s
    unfold wait_until_succeed
    rcases hps : pred s with ⟨r, s1⟩
    rw [hps] at h
    simp only at h
    subst h
    simpa using ih s1

theorem wait_until_succeed_error_at (f : Nat → Except PyErr Bool) (e : PyErr) :
    ∀ (k s n : Nat), k < n → (∀ i, i < k → f (s + i) = Except.ok false) →
      f (s + k) = Except.error e →
      (wait_until_succeed (fun t => (f t, t + 1)) n s).result = Except.error e
        ∧ (wait_until_succeed (fun t => (f t, t + 1)) n s).evals = k + 1
        ∧ (wait_until_succeed (fun t => (f t, t + 1)) n s).sleeps = k := by
  intro k
  induction k with
  | zero =>
    intro s n hn hfs hfe
    obtain ⟨m, rfl⟩ : ∃ m, n = m + 1 := ⟨n - 1, by omega⟩
    rw [Nat.add_zero] at hfe
    simp [wait_until_succeed, hfe]
  | succ k ih =>
    intro s n hn hfs hfe
    obtain ⟨m, rfl⟩ : ∃ m, n = m + 1 := ⟨n - 1, by omega⟩
    have h0 : f s = Except.ok false := by
      have := hfs 0 (by omega); simpa using this
    have hrec := ih (s + 1) m (by omega)
      (fun i hi => by
        have := hfs (i + 1) (by omega)
        simpa [Nat.add_assoc, Nat.add_comm 1 i] using this)
      (by
        have : s + 1 + k = s + (k + 1) := by omega
        rw [this]; exact hfe)
    simp only [wait_until_succeed, h0]
    exact ⟨hrec.1, by simp [hrec.2.1], by simp [hrec.2.2]⟩

theorem wait_until_fail_error_at (f : Nat → Except PyErr Bool) (e : PyErr) :
    ∀ (k s n : Nat), k < n → (∀ i, i < k → f (s + i) = Except.ok true) →
      f (s + k) = Except.error e →
      (wait_until_fail (fun t => (f t, t + 1)) n s).result = Except.error e
        ∧ (wait_until_fail (fun t => (f t, t + 1)) n s).evals = k + 1
        ∧ (wait_until_fail (fun t => (f t, t + 1)) n s).sleeps = k := by
  intro k
  induction k with
  | zero =>
    intro s n hn hfs hfe
    obtain ⟨m, rfl⟩ : ∃ m, n = m + 1 := ⟨n - 1, by omega⟩
    rw [Nat.add_zero] at hfe
    simp [wait_until_fail, hfe]
  | succ k ih =>
    intro s n hn hfs hfe
    obtain ⟨m, rfl⟩ : ∃ m, n = m + 1 := ⟨n - 1, by omega⟩
    have h0 : f s = Except.ok true := by
      have := hfs 0 (by omega); simpa using this
    have hrec := ih (s + 1) m (by omega)
      (fun i hi => by
        have := hfs (i + 1) (by omega)
        simpa [Nat.add_assoc, Nat.add_comm 1 i] using this)
      (by
        have : s + 1 + k = s + (k + 1) := by omega
        rw [this]; exact hfe)
    simp only [wait_until_fail, h0]
    exact ⟨hrec.1, by simp [hrec.2.1], by simp [hrec.2.2]⟩

theorem wait_until_succeed_pure_ok_iff (p : Nat → Bool) :
    ∀ (n s : Nat),
      (wait_until_succeed (fun t => (Except.ok (p t), t + 1)) n s).result
          = Except.ok ()
        ↔ ∃ j, j < n ∧ p (s + j) = true := by
  intro n
  induction n with
  | zero =>
    intro s
    constructor
    · intro h; exact absurd h (by simp [wait_until_succeed, timeoutSucceedErr])
    · rintro ⟨j, hj, _⟩; omega
  | succ m ih =>
    intro s
    by_cases hp : p s
    · constructor
      · intro _; exact ⟨0, by omega, by simpa using hp⟩
      · intro _; simp [wait_until_succeed, hp]
    · simp only [wait_until_succeed, hp]
      rw [ih (s + 1)]
      constructor
      · rintro ⟨j, hj, hpj⟩
        exact ⟨j + 1, by omega, by
          rwa [show s + 1 + j = s + (j + 1) by omega] at hpj⟩
      · rintro ⟨j, hj, hpj⟩
        rcases j with _ | j
        · simp at hpj; exact absurd hpj hp
        · exact ⟨j, by omega, by
            rwa [show s + (j + 1) = s + 1 + j by omega] at hpj⟩

theorem wait_until_succeed_pure_timeout (p : Nat → Bool) :
    ∀ (n s : Nat), (∀ j, j < n → p (s + j) = false) →
      (wait_until_succeed (fun t => (Except.ok (p t), t + 1)) n s).result
        = Except.error timeoutSucceedErr := by
  intro n
  induction n with
  | zero => intro s _; rfl
  | succ m ih =>
    intro s hall
    have h0 : p s = false := by simpa using hall 0 (by omega)
    simp only [wait_until_succeed, h0]
    refine ih (s + 1) (fun j hj => ?_)
    have := hall (j + 1) (by omega)
    have harith : s + 1 + j = s + (j + 1) := by omega
    rw [harith]; exact this

/-- When the device-count polling loop returns successfully and queries do
not themselves change the device count, the query made right after the loop
still observes the converged value. -/
theorem wait_until_succeed_converged_query {σ : Type} (M : MachineModel σ)
    (e : Int)
    (hq : ∀ t, (M.numberOfDevices (M.numberOfDevices t).2).1
      = (M.numberOfDevices t).1) :
    ∀ (n : Nat) (s : σ),
      (wait_until_succeed (fun t =>
          ((Except.ok (decide ((M.numberOfDevices t).1 = e)) :
            Except PyErr Bool), (M.numberOfDevices t).2)) n s).result
        = Except.ok () →
      (M.numberOfDevices (wait_until_succeed (fun t =>
          ((Except.ok (decide ((M.numberOfDevices t).1 = e)) :
            Except PyErr Bool), (M.numberOfDevices t).2)) n s).state).1 = e := by
  intro n
  induction n with
  | zero =>
    intro s h
    exact absurd h (by simp [wait_until_succeed, timeoutSucceedErr])
  | succ m ih =>
    intro s h
    by_cases hval : (M.numberOfDevices s).1 = e
    · simp only [wait_until_succeed, hval, decide_True]
      rw [hq s]; exact hval
    · simp only [wait_until_succeed] at h ⊢
      rw [show (decide ((M.numberOfDevices s).1 = e)) = false by
        simpa using hval] at h ⊢
      simp only [] at h ⊢
      exact ih (M.numberOfDevices s).2 (by simpa using h)

/-! ## Claim theorems -/

/-- C2: for every guard constructed with a cleanup action and a machine and
entered as a scope, the cleanup action has executed exactly once — not zero
times and not more than once — by the time the enclosing scope is fully
exited, both on normal exit and when the scope body raises an exception:
the execution count is 1 and the final machine state is the machine with
the cleanup applied exactly once. -/
theorem commandGuard_cleanup_exactly_once {σ : Type} (command : σ → σ)
    (machine : σ) (body : BodyOutcome) :
    (withCommandGuard command machine body).2.2 = 1 ∧
      (withCommandGuard command machine body).2.1 = command machine := by
  constructor <;>
    simp [withCommandGuard, finalizeGuard, CommandGuard.init]

/-- C3: for every retry budget `n ≥ 1`, `wait_until_succeed` applied to a
predicate that yields false on every evaluation evaluates the predicate
exactly `n` times and then raises the `RuntimeError` signalling convergence
timeout; the timeout is never silently swallowed. -/
theorem wait_until_succeed_exhausts_budget {σ : Type}
    (pred : σ → Except PyErr Bool × σ)
    (hp : ∀ s, (pred s).1 = Except.ok false) (n : Nat) (hn : 1 ≤ n) (s : σ) :
    (wait_until_succeed pred n s).result = Except.error timeoutSucceedErr ∧
      (wait_until_succeed pred n s).evals = n :=
  wait_until_succeed_always_false pred hp n s

/-- C3 witness: with a constantly-false predicate and a budget of 3, the
loop evaluates the predicate exactly 3 times and raises the timeout
error. -/
theorem wait_until_succeed_exhausts_budget_witness :
    (1 ≤ 3) ∧
      (wait_until_succeed (fun s : Unit => (Except.ok false, s)) 3 ()).result
        = Except.error timeoutSucceedErr ∧
      (wait_until_succeed (fun s : Unit => (Except.ok false, s)) 3 ()).evals
        = 3 :=
  ⟨by omega,
    wait_until_succeed_exhausts_budget (fun s : Unit => (Except.ok false, s))
      (fun _ => rfl) 3 (by omega) ()⟩

/-- C10: if the predicate passed to `wait_until_succeed` or
`wait_until_fail` raises an exception on its (k+1)-st evaluation, that
exception propagates to the caller unchanged: exactly k+1 evaluations
occur, only the k sleeps already performed happen, and the timeout error is
not substituted for the exception. -/
theorem waiters_propagate_predicate_exception
    (f g : Nat → Except PyErr Bool) (e : PyErr) (k n : Nat) (hkn : k < n)
    (hfs : ∀ i, i < k → f i = Except.ok false) (hfe : f k = Except.error e)
    (hgs : ∀ i, i < k → g i = Except.ok true) (hge : g k = Except.error e) :
    ((wait_until_succeed (fun t => (f t, t + 1)) n 0).result = Except.error e
      ∧ (wait_until_succeed (fun t => (f t, t + 1)) n 0).evals = k + 1
      ∧ (wait_until_succeed (fun t => (f t, t + 1)) n 0).sleeps = k)
    ∧ ((wait_until_fail (fun t => (g t, t + 1)) n 0).result = Except.error e
      ∧ (wait_until_fail (fun t => (g t, t + 1)) n 0).evals = k + 1
      ∧ (wait_until_fail (fun t => (g t, t + 1)) n 0).sleeps = k) := by
  constructor
  · exact wait_until_succeed_error_at f e k 0 n hkn
      (fun i hi => by simpa using hfs i hi) (by simpa using hfe)
  · exact wait_until_fail_error_at g e k 0 n hkn
      (fun i hi => by simpa using hgs i hi) (by simpa using hge)

/-- C10 witness: a predicate that is quiet twice and raises on its third
evaluation aborts both waiters after exactly 3 evaluations and 2 sleeps,
surfacing the raised exception. -/
theorem waiters_propagate_predicate_exception_witness :
    ((2 : Nat) < 10) ∧
      (wait_until_succeed (fun t =>
          ((if t = 2 then Except.error (PyErr.valueErr "boom")
            else Except.ok false), t + 1)) 10 0).result
        = Except.error (PyErr.valueErr "boom") ∧
      (wait_until_succeed (fun t =>
          ((if t = 2 then Except.error (PyErr.valueErr "boom")
            else Except.ok false), t + 1)) 10 0).evals = 3 ∧
      (wait_until_fail (fun t =>
          ((if t = 2 then Except.error (PyErr.valueErr "boom")
            else Except.ok true), t + 1)) 10 0).sleeps = 2 := by
  have h := waiters_propagate_predicate_exception
    (fun t => if t = 2 then Except.error (PyErr.valueErr "boom")
      else Except.ok false)
    (fun t => if t = 2 then Except.error (PyErr.valueErr "boom")
      else Except.ok true)
    (PyErr.valueErr "boom") 2 10 (by omega)
    (fun i hi => by interval_cases i <;> rfl) rfl
    (fun i hi => by interval_cases i <;> rfl) rfl
  exact ⟨by omega, h.1.1, h.1.2.1, h.2.2.2⟩

theorem classify_eq_none (cmd : String)
    (h1 : pyStartsWith cmd "virsh attach-" = false)
    (h2 : pyStartsWith cmd "virsh detach-" = false) :
    classify cmd = none := by
  simp [classify, h1, h2]

/-- C4: for every command string recognized as neither an attach nor a
detach operation, `hotplug` raises the invalid-operation error before
issuing any remote call: no device-count query is made, the mutating
command is never executed, and the machine state is untouched. -/
theorem hotplug_invalid_operation {σ : Type} (M : MachineModel σ)
    (cmd : String) (es : Bool) (s : σ)
    (h1 : pyStartsWith cmd "virsh attach-" = false)
    (h2 : pyStartsWith cmd "virsh detach-" = false) :
    hotplug M cmd es s =
      ⟨Except.error (.runtimeErr
          ("command is neither `virsh attach-*` nor `virsh detach-*`: `"
            ++ cmd ++ "`")), s, []⟩ := by
  unfold hotplug
  rw [classify_eq_none cmd h1 h2]

/-- C4 witness: `virsh list` is neither an attach nor a detach command, and
`hotplug` rejects it with no remote interaction. -/
theorem hotplug_invalid_operation_witness :
    (pyStartsWith "virsh list" "virsh attach-" = false) ∧
      (hotplug (oracleMachine (fun _ => 0) true) "virsh list" true 0).events
        = [] ∧
      (hotplug (oracleMachine (fun _ => 0) true) "virsh list" true 0).result
        = Except.error (.runtimeErr
          ("command is neither `virsh attach-*` nor `virsh detach-*`: `"
            ++ "virsh list" ++ "`")) := by
  have h := hotplug_invalid_operation (oracleMachine (fun _ => 0) true)
    "virsh list" true 0 (by decide) (by decide)
  exact ⟨by decide, by rw [h], by rw [h]⟩

theorem hotplug_classified {σ : Type} (M : MachineModel σ) (cmd : String)
    (es : Bool) (s : σ) (a : Bool) (hc : classify cmd = some a) :
    hotplug M cmd es s = hotplugGo M cmd a es s := by
  unfold hotplug; rw [hc]

/-- C1: for every device-count oracle and every command classified as
attach or detach whose success/failure assertion passes, `hotplug` computes
the expected post-condition count from the count observed before the
command — attach+success: `countBefore+1`; attach+expectedFailure:
`countBefore`; detach+success: `countBefore-1`; detach+expectedFailure:
`countBefore` — and then polls the device count until it equals exactly
that value, returning normally when some of the 20 polls observes it and
raising the convergence-timeout error when none does. -/
theorem hotplug_expected_count_convergence (counts : Nat → Int)
    (cmd : String) (es a : Bool) (expected : Int)
    (hc : classify cmd = some a)
    (hexp : expected = if a then (if es then counts 0 + 1 else counts 0)
      else (if es then counts 0 - 1 else counts 0)) :
    ((∃ j, j < 20 ∧ counts (1 + j) = expected) →
      (hotplug (oracleMachine counts es) cmd es 0).result = Except.ok ())
    ∧ ((∀ j, j < 20 → counts (1 + j) ≠ expected) →
      (hotplug (oracleMachine counts es) cmd es 0).result
        = Except.error timeoutSucceedErr) := by
  rw [hotplug_classified (oracleMachine counts es) cmd es 0 a hc]
  unfold hotplugGo
  simp only [oracleMachine, ← hexp, if_pos rfl]
  constructor
  · rintro ⟨j, hj, hcj⟩
    have := (wait_until_succeed_pure_ok_iff
        (fun t => decide (counts t = expected)) 20 1).mpr
      ⟨j, hj, by simpa using hcj⟩
    simpa using this
  · intro hall
    have := wait_until_succeed_pure_timeout
      (fun t => decide (counts t = expected)) 20 1
      (fun j hj => by simpa using hall j hj)
    simpa using this

/-- C1 witness: an attach command on an oracle reporting 3 devices before
the command and 4 afterwards converges, and with an oracle stuck at 3 the
wait raises the timeout error. -/
theorem hotplug_expected_count_convergence_witness :
    (classify "virsh attach-disk testvm" = some true) ∧
      ((4 : Int) = cfWit 0 + 1) ∧
      (hotplug (oracleMachine cfWit true) "virsh attach-disk testvm" true
        0).result = Except.ok () ∧
      (hotplug (oracleMachine (fun _ => 3) true) "virsh attach-disk testvm"
        true 0).result = Except.error timeoutSucceedErr := by
  refine ⟨by decide, by decide, ?_, ?_⟩
  · exact (hotplug_expected_count_convergence cfWit "virsh attach-disk testvm"
      true true 4 (by decide) (by decide)).1 ⟨0, by omega, by decide⟩
  · exact (hotplug_expected_count_convergence (fun _ => 3)
      "virsh attach-disk testvm" true true 4 (by decide) (by decide)).2
      (fun j _ => by decide)

/-- A successful `hotplug` call with `expect_success = true` leaves the
guest observing exactly one more (attach) or one fewer (detach) device than
before, provided device-count queries do not themselves change the
count. -/
theorem hotplug_ok_post {σ : Type} (M : MachineModel σ) (cmd : String)
    (a : Bool) (s : σ) (hc : classify cmd = some a)
    (hq : ∀ t, (M.numberOfDevices (M.numberOfDevices t).2).1
      = (M.numberOfDevices t).1)
    (h : (hotplug M cmd true s).result = Except.ok ()) :
    (M.numberOfDevices (hotplug M cmd true s).state).1
      = (M.numberOfDevices s).1 + (if a then 1 else -1) := by
  rw [hotplug_classified M cmd true s a hc] at h ⊢
  unfold hotplugGo at h ⊢
  by_cases hcmd : (M.runCommand cmd (M.numberOfDevices s).2).1 = true
  · rw [if_pos hcmd] at h ⊢
    simp only [if_true] at h ⊢
    have hconv := wait_until_succeed_converged_query M
      (if a = true then (M.numberOfDevices s).1 + 1
        else (M.numberOfDevices s).1 - 1) hq 20
      (M.runCommand cmd (M.numberOfDevices s).2).2 h
    rw [hconv]
    cases a <;> simp <;> ring
  · exfalso
    rw [if_neg hcmd] at h
    simp at h

/-- C7: a successful attach via `hotplug` followed by the matching
successful detach via `hotplug` (each call converging within its budget)
leaves the device count observed after the pair equal to the count observed
before the pair. -/
theorem hotplug_round_trip {σ : Type} (M : MachineModel σ) (s0 : σ)
    (cmdA cmdD : String)
    (hA : classify cmdA = some true) (hD : classify cmdD = some false)
    (hq : ∀ t, (M.numberOfDevices (M.numberOfDevices t).2).1
      = (M.numberOfDevices t).1)
    (h1 : (hotplug M cmdA true s0).result = Except.ok ())
    (h2 : (hotplug M cmdD true (hotplug M cmdA true s0).state).result
      = Except.ok ()) :
    (M.numberOfDevices
        (hotplug M cmdD true (hotplug M cmdA true s0).state).state).1
      = (M.numberOfDevices s0).1 := by
  have hmid := hotplug_ok_post M cmdA true s0 hA hq h1
  have hfin := hotplug_ok_post M cmdD false (hotplug M cmdA true s0).state
    hD hq h2
  simp only [if_true, if_pos, if_neg] at hmid hfin
  rw [hfin, hmid]
  simp

/-- C7 witness: on a deterministic guest with 5 devices, attaching and then
detaching a disk returns the observed device count to 5. -/
theorem hotplug_round_trip_witness :
    (classify "virsh attach-disk testvm" = some true) ∧
      (classify "virsh detach-disk testvm" = some false) ∧
      (guestMachine.numberOfDevices
          (hotplug guestMachine "virsh detach-disk testvm" true
            (hotplug guestMachine "virsh attach-disk testvm" true
              (5 : Int)).state).state).1
        = (guestMachine.numberOfDevices (5 : Int)).1 := by
  refine ⟨by decide, by decide, ?_⟩
  exact hotplug_round_trip guestMachine 5 "virsh attach-disk testvm"
    "virsh detach-disk testvm" (by decide) (by decide) (fun t => rfl)
    (by decide) (by decide)

/-! ## Lemmas about the PCI snapshot pipeline -/

theorem splitOnChar_ne_nil (sep : Char) (l : List Char) :
    splitOnChar sep l ≠ [] := by
  induction l with
  | nil => simp [splitOnChar]
  | cons c cs ih =>
    simp only [splitOnChar]
    by_cases h : c = sep
    · simp [h]
    · rcases hr : splitOnChar sep cs with _ | ⟨hh, tt⟩
      · exact absurd hr ih
      · simp [h, hr]

theorem mem_of_mem_splitOnChar (sep : Char) (l : List Char) :
    ∀ p ∈ splitOnChar sep l, ∀ c ∈ p, c ∈ l := by
  induction l with
  | nil =>
    intro p hp c hc
    simp only [splitOnChar, List.mem_singleton] at hp
    subst hp; simp at hc
  | cons x xs ih =>
    intro p hp c hc
    simp only [splitOnChar] at hp
    by_cases h : x = sep
    · rw [if_pos h] at hp
      rcases List.mem_cons.mp hp with rfl | hmem
      · simp at hc
      · exact List.mem_cons_of_mem _ (ih p hmem c hc)
    · rw [if_neg h] at hp
      rcases hr : splitOnChar sep xs with _ | ⟨hh, tt⟩
      · exact absurd hr (splitOnChar_ne_nil sep xs)
      · rw [hr] at hp
        simp only at hp
        rcases List.mem_cons.mp hp with rfl | hmem
        · rcases List.mem_cons.mp hc with rfl | hc2
          · exact List.mem_cons_self _ _
          · exact List.mem_cons_of_mem _
              (ih hh (by rw [hr]; exact List.mem_cons_self _ _) c hc2)
        · exact List.mem_cons_of_mem _
            (ih p (by rw [hr]; exact List.mem_cons_of_mem _ hmem) c hc)

theorem splitOnChar_no_sep (sep : Char) (l : List Char)
    (h : ∀ c ∈ l, c ≠ sep) : splitOnChar sep l = [l] := by
  induction l with
  | nil => rfl
  | cons x xs ih =>
    have hx : x ≠ sep := h x (List.mem_cons_self _ _)
    simp only [splitOnChar]
    rw [ih (fun c hc => h c (List.mem_cons_of_mem _ hc))]
    simp [hx]

theorem splitOnChar_append (sep : Char) (a b : List Char)
    (h : ∀ c ∈ a, c ≠ sep) :
    splitOnChar sep (a ++ sep :: b) = a :: splitOnChar sep b := by
  induction a with
  | nil => simp [splitOnChar]
  | cons x xs ih =>
    have hx : x ≠ sep := h x (List.mem_cons_self _ _)
    simp only [List.cons_append, splitOnChar, List.append_eq]
    rw [ih (fun c hc => h c (List.mem_cons_of_mem _ hc))]
    simp [hx]

theorem splitLine2_render (b cls : List Char) (hb : ∀ c ∈ b, c ≠ ',')
    (hc : ∀ c ∈ cls, c ≠ ',') :
    splitLine2 (b ++ ',' :: cls) = Except.ok (b, cls) := by
  unfold splitLine2
  rw [splitOnChar_append ',' b cls hb, splitOnChar_no_sep ',' cls hc]

theorem getD_mem_or {α : Type} (xs : List α) (i : Nat) (d : α) :
    xs.getD i d ∈ xs ∨ xs.getD i d = d := by
  induction xs generalizing i with
  | nil => right; cases i <;> rfl
  | cons x xs ih =>
    cases i with
    | zero => left; simp
    | succ j =>
      rcases ih j with h | h
      · left; rw [List.getD_cons_succ]; exact List.mem_cons_of_mem _ h
      · right; rw [List.getD_cons_succ]; exact h

theorem awkField_chars (l : List Char) (i : Nat) (c : Char)
    (hc : c ∈ (awkFields l).getD i []) : c ∈ l := by
  rcases getD_mem_or (awkFields l) i [] with h | h
  · exact mem_of_mem_splitOnChar ' ' l _ (List.mem_of_mem_filter h) c hc
  · rw [h] at hc; simp at hc

theorem pyBuildDict_awkRun (lines : List (List Char)) :
    ∀ (bdf cls : List Char) (d : List (List Char × List Char)),
      (∀ l ∈ lines, ∀ c ∈ l, c ≠ ',') → (∀ c ∈ bdf, c ≠ ',') →
      pyBuildDict d (awkRun (bdf, cls) lines)
        = Except.ok (snapshotRef bdf lines d) := by
  induction lines with
  | nil => intro bdf cls d _ _; rfl
  | cons l ls ih =>
    intro bdf cls d hl hb
    have hlnc : ∀ c ∈ l, c ≠ ',' := hl l (List.mem_cons_self _ _)
    have hbnc : ∀ c ∈ (if matchesBDF l then (awkFields l).getD 0 [] else bdf),
        c ≠ ',' := by
      by_cases hm : matchesBDF l
      · rw [if_pos hm]; intro c hc; exact hlnc c (awkField_chars l 0 c hc)
      · rw [if_neg hm]; exact hb
    have hclsnc : ∀ c ∈ (awkFields l).getD 2 [], c ≠ ',' :=
      fun c hc => hlnc c (awkField_chars l 2 c hc)
    simp only [awkRun, awkLine, pyBuildDict, snapshotRef]
    rw [splitLine2_render _ _ hbnc hclsnc]
    exact ih _ _ _ (fun l2 h2 => hl l2 (List.mem_cons_of_mem _ h2)) hbnc

/-- C5 counterexample: a line lacking a recognizable BDF prefix is not
excluded from the snapshot — appending the noise line `"garbage noise
here"` after a well-formed `lspci -n` line changes the resulting mapping
(the noise line overwrites the preceding BDF's value with its own third
field). -/
theorem pci_devices_by_bdf_noise_not_excluded :
    pci_devices_by_bdf [cexL1, cexL2] ≠ pci_devices_by_bdf [cexL1] := by
  decide

/-- C5 (amended): empty input yields an empty mapping, not an error; and
for every comma-free input, each line with a recognizable BDF prefix
contributes the mapping from its first field (the BDF) to its third field
(the class/vendor identifier), while a line lacking a recognizable BDF
prefix is not excluded: it contributes a mapping under the most recently
seen BDF (the empty string before any match), overwriting that entry with
its own third field — exactly the snapshot described by `snapshotRef`. -/
theorem pci_devices_by_bdf_builds_snapshot :
    pci_devices_by_bdf [] = Except.ok [] ∧
      ∀ lines : List (List Char),
        (lines.all (fun l => l.all (fun c => c != ','))) = true →
        pci_devices_by_bdf lines = Except.ok (snapshotRef [] lines []) := by
  constructor
  · rfl
  · intro lines hnc
    refine pyBuildDict_awkRun lines [] [] [] ?_ (by simp)
    intro l hl c hc
    have h1 := (List.all_eq_true.mp hnc) l hl
    have h2 := (List.all_eq_true.mp h1) c hc
    simpa using h2

/-- C5 witness: the amended description evaluated on the concrete
counterexample input — the noise line's contribution lands under the BDF
`00:01.0` seen on the preceding line. -/
theorem pci_devices_by_bdf_builds_snapshot_witness :
    (([cexL1, cexL2] : List (List Char)).all
        (fun l => l.all (fun c => c != ','))) = true ∧
      pci_devices_by_bdf [cexL1, cexL2]
        = Except.ok (snapshotRef [] [cexL1, cexL2] []) :=
  ⟨by decide, pci_devices_by_bdf_builds_snapshot.2 [cexL1, cexL2] (by decide)⟩

/-! ## The network convergence checker rejects invalid addresses -/

/-- For an address that is not a valid private 192.168.x.x address,
`ip_in_local_192_168_net24` raises without touching the machine. -/
theorem rootCause_invalidAddressErr (ip : String) :
    (invalidAddressErr ip).rootCause = invalidAddressErr ip := by
  unfold invalidAddressErr
  rcases parseIPv4 ip with _ | t <;> rfl

theorem ip_in_local_invalid_err {σ : Type} (ipj : σ → List JVal × σ)
    (ip : String) (hbad : validPrivate192168 ip = false) (s : σ) :
    ip_in_local_192_168_net24 ipj ip s =
      (Except.error (invalidAddressErr ip), s) := by
  unfold ip_in_local_192_168_net24 invalidAddressErr validPrivate192168 at *
  rcases hp : parseIPv4 ip with _ | t
  · rfl
  · rw [hp] at hbad
    have hbad2 : (is_private t && explodedIs192168 t) = false := hbad
    have hcond : (!is_private t || !explodedIs192168 t) = true := by
      rcases Bool.and_eq_false_iff.mp hbad2 with h | h <;> simp [h]
    simp [hcond]

/-- C6: for every target address string that is not a valid private
192.168.x.x IPv4 address, `ip_in_local_192_168_net24` rejects it with an
error before any machine interaction, and the wait built on it
(`wait_for_host_shares_ipv4_network`) fails on the first evaluation: the
predicate is evaluated exactly once, no interval sleeps occur (the
remaining retry budget is not consumed), and the surfaced error's root
cause is the invalid-address error, not the convergence timeout. -/
theorem invalid_address_rejected_without_retry {σ : Type}
    (ipj : σ → List JVal × σ) (execIpA : σ → σ) (ip : String)
    (hbad : validPrivate192168 ip = false) (n : Nat) (hn : 1 ≤ n) (s : σ) :
    (ip_in_local_192_168_net24 ipj ip s
        = (Except.error (invalidAddressErr ip), s))
    ∧ (wait_for_host_shares_ipv4_network ipj execIpA ip n s).evals = 1
    ∧ (wait_for_host_shares_ipv4_network ipj execIpA ip n s).sleeps = 0
    ∧ ∃ e, (wait_for_host_shares_ipv4_network ipj execIpA ip n s).result
          = Except.error e
        ∧ e.rootCause = invalidAddressErr ip := by
  have hloc := ip_in_local_invalid_err ipj ip hbad
  obtain ⟨m, rfl⟩ : ∃ m, n = m + 1 := ⟨n - 1, by omega⟩
  have hwait : wait_until_succeed
      (fun t => ip_in_local_192_168_net24 ipj ip t) (m + 1) s
      = ⟨Except.error (invalidAddressErr ip), s, 1, 0⟩ := by
    simp only [wait_until_succeed, hloc s]
  refine ⟨hloc s, ?_, ?_, ?_⟩ <;>
    unfold wait_for_host_shares_ipv4_network <;> rw [hwait]
  · rcases hrt : (invalidAddressErr ip).isRuntimeError <;> simp [hrt]
  · rcases hrt : (invalidAddressErr ip).isRuntimeError <;> simp [hrt]
  · rcases hrt : (invalidAddressErr ip).isRuntimeError with _ | _
    · exact ⟨invalidAddressErr ip, by simp [hrt],
        rootCause_invalidAddressErr ip⟩
    · refine ⟨.chained (.runtimeErr
        ("Host does not have an IP in the same IPv4 network as " ++ ip))
        (invalidAddressErr ip), by simp [hrt], ?_⟩
      show (invalidAddressErr ip).rootCause = invalidAddressErr ip
      exact rootCause_invalidAddressErr ip

/-- C6 witness: `10.0.0.5` is not a 192.168.x.x address; the wait rejects
it after exactly one predicate evaluation and zero sleeps of its budget of
20. -/
theorem invalid_address_rejected_without_retry_witness :
    (validPrivate192168 "10.0.0.5" = false) ∧
      (wait_for_host_shares_ipv4_network (fun s : Unit => ([], s)) id
        "10.0.0.5" 20 ()).evals = 1 ∧
      (wait_for_host_shares_ipv4_network (fun s : Unit => ([], s)) id
        "10.0.0.5" 20 ()).sleeps = 0 := by
  have h := invalid_address_rejected_without_retry
    (fun s : Unit => ([], s)) id "10.0.0.5" (by decide) 20 (by omega) ()
  exact ⟨by decide, h.2.1, h.2.2.1⟩

/-! ## The interface-listing characterization (`get_local_192_168_net24_networks`) -/

theorem addrMatches_eq_some (ad : JVal) (s : String) :
    addrMatches ad = some s ↔
      (jGet ad "family" = some (.str "inet")
        ∧ jGet ad "local" = some (.str s)
        ∧ jGet ad "prefixlen" = some (.num 24)) := by
  unfold addrMatches
  constructor
  · intro h
    split at h
    case h_1 fam s2 p h1 h2 h3 =>
      by_cases hc : (fam = "inet" && p = 24) = true
      · rw [if_pos hc] at h
        rcases Bool.and_eq_true_iff.mp hc with ⟨hf, hp⟩
        obtain rfl : fam = "inet" := by simpa using hf
        obtain rfl : p = 24 := by simpa using hp
        obtain rfl : s2 = s := by simpa using h
        exact ⟨h1, h2, h3⟩
      · rw [if_neg hc] at h; exact absurd h (by simp)
    case h_2 => exact absurd h (by simp)
  · rintro ⟨h1, h2, h3⟩
    rw [h1, h2, h3]
    simp

theorem ifaceAddrs_mem (iface ad : JVal) :
    ad ∈ ifaceAddrs iface ↔
      ∃ addrs, jGet iface "addr_info" = some (.arr addrs) ∧ ad ∈ addrs := by
  unfold ifaceAddrs
  split
  case h_1 xs heq => simp [heq]
  case h_2 hne =>
    simp only [List.not_mem_nil, false_iff]
    rintro ⟨addrs, haddrs, _⟩
    exact hne addrs haddrs

theorem collectAddrNets_mem (addrs : List JVal) :
    ∀ (ns : List Net24), collectAddrNets addrs = Except.ok ns →
      ∀ n : Net24, n ∈ ns ↔
        ∃ ad ∈ addrs, ∃ s t, addrMatches ad = some s
          ∧ parseIPv4 s = some t ∧ t.a = 192 ∧ t.b = 168
          ∧ n = ⟨t.a, t.b, t.c⟩ := by
  induction addrs with
  | nil =>
    intro ns h n
    obtain rfl : ([] : List Net24) = ns := by simpa [collectAddrNets] using h
    simp
  | cons ad rest ih =>
    intro ns h n
    simp only [collectAddrNets] at h
    rcases ham : addrMatches ad with _ | s
    · rw [ham] at h
      rw [ih ns h n]
      constructor
      · rintro ⟨ad2, had2, hrest⟩
        exact ⟨ad2, List.mem_cons_of_mem _ had2, hrest⟩
      · rintro ⟨ad2, had2, hrest⟩
        rcases List.mem_cons.mp had2 with rfl | hmem
        · rcases hrest with ⟨s, t, hm, _⟩
          rw [ham] at hm; cases hm
        · exact ⟨ad2, hmem, hrest⟩
    · simp only [ham] at h
      rcases hps : parseIPv4 s with _ | t
      · simp only [hps] at h
        exact absurd h (by simp)
      · simp only [hps] at h
        rcases hrec : collectAddrNets rest with e | ns2
        · simp only [hrec] at h
          exact absurd h (by simp)
        · simp only [hrec] at h
          by_cases hab : (t.a = 192 && t.b = 168) = true
          · rw [if_pos hab] at h
            obtain rfl : ns = ⟨t.a, t.b, t.c⟩ :: ns2 := by
              cases h; rfl
            rcases Bool.and_eq_true_iff.mp hab with ⟨ha, hb⟩
            rw [List.mem_cons]
            constructor
            · rintro (rfl | hmem)
              · exact ⟨ad, List.mem_cons_self _ _, s, t, ham, hps,
                  by simpa using ha, by simpa using hb, rfl⟩
              · obtain ⟨ad2, hmem2, hrest2⟩ := (ih ns2 hrec n).mp hmem
                exact ⟨ad2, List.mem_cons_of_mem _ hmem2, hrest2⟩
            · rintro ⟨ad2, had2, s2, t2, hm2, hp2, ha2, hb2, rfl⟩
              rcases List.mem_cons.mp had2 with rfl | hmem2
              · rw [ham] at hm2
                obtain rfl : s = s2 := by cases hm2; rfl
                rw [hps] at hp2
                obtain rfl : t = t2 := by cases hp2; rfl
                left; rfl
              · right
                exact (ih ns2 hrec _).mpr ⟨ad2, hmem2, s2, t2, hm2, hp2,
                  ha2, hb2, rfl⟩
          · rw [if_neg hab] at h
            have hns : ns = ns2 := by cases h; rfl
            rw [hns, ih ns2 hrec n]
            constructor
            · rintro ⟨ad2, had2, hrest2⟩
              exact ⟨ad2, List.mem_cons_of_mem _ had2, hrest2⟩
            · rintro ⟨ad2, had2, s2, t2, hm2, hp2, ha2, hb2, rfl⟩
              rcases List.mem_cons.mp had2 with rfl | hmem2
              · rw [ham] at hm2
                obtain rfl : s = s2 := by cases hm2; rfl
                rw [hps] at hp2
                obtain rfl : t = t2 := by cases hp2; rfl
                exact absurd (by simp [ha2, hb2] : (t.a = 192 && t.b = 168) = true) hab
              · exact ⟨ad2, hmem2, s2, t2, hm2, hp2, ha2, hb2, rfl⟩

theorem collectNets_mem (ifs : List JVal) :
    ∀ (ns : List Net24), collectNets ifs = Except.ok ns →
      ∀ n : Net24, n ∈ ns ↔
        ∃ iface ∈ ifs, ∃ ad ∈ ifaceAddrs iface, ∃ s t,
          addrMatches ad = some s ∧ parseIPv4 s = some t
            ∧ t.a = 192 ∧ t.b = 168 ∧ n = ⟨t.a, t.b, t.c⟩ := by
  induction ifs with
  | nil =>
    intro ns h n
    obtain rfl : ([] : List Net24) = ns := by simpa [collectNets] using h
    simp
  | cons iface rest ih =>
    intro ns h n
    simp only [collectNets] at h
    rcases hca : collectAddrNets (ifaceAddrs iface) with e | here
    · simp only [hca] at h
      exact absurd h (by simp)
    · simp only [hca] at h
      rcases hcr : collectNets rest with e | more
      · simp only [hcr] at h
        exact absurd h (by simp)
      · simp only [hcr] at h
        obtain rfl : ns = here ++ more := by cases h; rfl
        rw [List.mem_append, collectAddrNets_mem _ here hca n, ih more hcr n]
        constructor
        · rintro (⟨ad, had, hrest⟩ | ⟨if2, hif2, hrest⟩)
          · exact ⟨iface, List.mem_cons_self _ _, ad, had, hrest⟩
          · exact ⟨if2, List.mem_cons_of_mem _ hif2, hrest⟩
        · rintro ⟨if2, hif2, hrest⟩
          rcases List.mem_cons.mp hif2 with rfl | hmem
          · exact Or.inl hrest
          · exact Or.inr ⟨if2, hmem, hrest⟩



/-- C8: for every interface listing on which it returns successfully,
`get_local_192_168_net24_networks` returns exactly the /24 networks of the
listed IPv4 (`family == "inet"`) addresses whose prefix length is exactly
24 and whose derived /24 network lies inside 192.168.0.0/16, and nothing
else. -/
theorem get_local_networks_spec (interfaces : List JVal) (nets : List Net24)
    (h : get_local_192_168_net24_networks interfaces = Except.ok nets)
    (n : Net24) :
    n ∈ nets ↔
      ∃ iface ∈ interfaces, ∃ addrs,
        jGet iface "addr_info" = some (.arr addrs)
        ∧ ∃ ad ∈ addrs, ∃ s t,
          jGet ad "family" = some (.str "inet")
          ∧ jGet ad "local" = some (.str s)
          ∧ jGet ad "prefixlen" = some (.num 24)
          ∧ parseIPv4 s = some t ∧ t.a = 192 ∧ t.b = 168
          ∧ n = ⟨t.a, t.b, t.c⟩ := by
  unfold get_local_192_168_net24_networks at h
  rcases hc : collectNets interfaces with e | ns0
  · rw [hc] at h; cases h
  · rw [hc] at h
    have hns : nets = ns0.insertionSort (fun x y => net24Key x ≤ net24Key y) := by
      cases h; rfl
    rw [hns, List.mem_insertionSort, collectNets_mem interfaces ns0 hc n]
    constructor
    · rintro ⟨iface, hif, ad, had, s, t, hm, hrest⟩
      obtain ⟨addrs, haddrs, hadmem⟩ := (ifaceAddrs_mem iface ad).mp had
      obtain ⟨h1, h2, h3⟩ := (addrMatches_eq_some ad s).mp hm
      exact ⟨iface, hif, addrs, haddrs, ad, hadmem, s, t, h1, h2, h3, hrest⟩
    · rintro ⟨iface, hif, addrs, haddrs, ad, hadmem, s, t, h1, h2, h3, hrest⟩
      exact ⟨iface, hif, ad,
        (ifaceAddrs_mem iface ad).mpr ⟨addrs, haddrs, hadmem⟩, s, t,
        (addrMatches_eq_some ad s).mpr ⟨h1, h2, h3⟩, hrest⟩

/-- C8 witness: for a listing carrying `192.168.1.5/24` and `10.0.0.5/24`,
the result is exactly the network 192.168.1.0/24, and its membership is
produced by the qualifying address `192.168.1.5`. -/
theorem get_local_networks_spec_witness :
    get_local_192_168_net24_networks ifsWit
        = Except.ok [(⟨192, 168, 1⟩ : Net24)] ∧
      (⟨192, 168, 1⟩ : Net24) ∈ [(⟨192, 168, 1⟩ : Net24)] := by
  refine ⟨by decide, ?_⟩
  refine (get_local_networks_spec ifsWit [⟨192, 168, 1⟩] (by decide)
    ⟨192, 168, 1⟩).mpr ?_
  refine ⟨ifsWit.headD JVal.null, by simp [ifsWit], ?_⟩
  refine ⟨[JVal.obj [("family", JVal.str "inet"),
      ("local", JVal.str "192.168.1.5"), ("prefixlen", JVal.num 24)],
    JVal.obj [("family", JVal.str "inet"),
      ("local", JVal.str "10.0.0.5"), ("prefixlen", JVal.num 24)]],
    rfl, ?_⟩
  refine ⟨JVal.obj [("family", JVal.str "inet"),
      ("local", JVal.str "192.168.1.5"), ("prefixlen", JVal.num 24)],
    by simp, "192.168.1.5", ⟨192, 168, 1, 5⟩, rfl, rfl, rfl, by decide,
    rfl, rfl, rfl⟩

/-! ## The domain-definition parser (`parse_devices_from_dom_def`) -/

theorem mem_dictInsert {α β : Type} [DecidableEq α] (d : List (α × β))
    (k : α) (v : β) (p : α × β) (hp : p ∈ dictInsert d k v) :
    p = (k, v) ∨ p ∈ d := by
  unfold dictInsert at hp
  split at hp
  · obtain ⟨q, hq, hqe⟩ := List.mem_map.mp hp
    split at hqe
    · left; exact hqe.symm
    · right; rw [← hqe]; exact hq
  · rcases List.mem_append.mp hp with h1 | h1
    · right; exact h1
    · left; simpa using (List.mem_singleton.mp h1)

theorem parseDeviceList_mem (ds : List XmlNode) :
    ∀ (d : List (String × String)) (p : String × String),
      p ∈ parseDeviceList d ds →
      p ∈ d ∨ ∃ device ∈ ds, pciSlot device = some p.1
        ∧ p.2 = pyStrip (deviceIdentity device) := by
  induction ds with
  | nil =>
    intro d p hp
    left; simpa [parseDeviceList] using hp
  | cons device rest ih =>
    intro d p hp
    simp only [parseDeviceList] at hp
    rcases hslot : pciSlot device with _ | slot
    · simp only [hslot] at hp
      rcases ih d p hp with h | ⟨dev2, hmem, hrest⟩
      · left; exact h
      · right; exact ⟨dev2, List.mem_cons_of_mem _ hmem, hrest⟩
    · simp only [hslot] at hp
      rcases ih _ p hp with h | ⟨dev2, hmem, hrest⟩
      · rcases mem_dictInsert _ _ _ p h with hpe | hd
        · right
          refine ⟨device, List.mem_cons_self _ _, ?_, ?_⟩
          · rw [hslot, hpe]
          · rw [hpe]
        · left; exact hd
      · right; exact ⟨dev2, List.mem_cons_of_mem _ hmem, hrest⟩

theorem parseDeviceList_filter (ds : List XmlNode) :
    ∀ d, parseDeviceList d ds
      = parseDeviceList d (ds.filter (fun dv => (pciSlot dv).isSome)) := by
  induction ds with
  | nil => intro d; rfl
  | cons device rest ih =>
    intro d
    rcases hslot : pciSlot device with _ | slot
    · simp only [List.filter_cons, hslot, Option.isSome_none,
        Bool.false_eq_true, if_false, parseDeviceList]
      exact ih d
    · simp only [List.filter_cons, hslot, Option.isSome_some, if_true,
        parseDeviceList]
      exact ih _

/-- C9: every entry of the slot-to-identity map built by
`parse_devices_from_dom_def` comes from a device element of the `devices`
node that carries a PCI address with exactly that slot, and its value is
that device's type-derived identity string; devices lacking a PCI address
are excluded — filtering them out of the device list leaves the resulting
map unchanged. -/
theorem parse_devices_characterization (root : XmlNode) :
    (∀ p ∈ parse_devices_from_dom_def root,
        ∃ device ∈ devicesChildren root,
          pciSlot device = some p.1 ∧ p.2 = pyStrip (deviceIdentity device))
    ∧ parse_devices_from_dom_def root
        = parseDeviceList [] ((devicesChildren root).filter
            (fun dv => (pciSlot dv).isSome)) := by
  constructor
  · intro p hp
    rcases parseDeviceList_mem (devicesChildren root) [] p hp with h | h
    · simp at h
    · exact h
  · exact parseDeviceList_filter (devicesChildren root) []

/-- C9 witness: on a definition holding a disk, an entropy source, an
interface and an address-less device, the map keys are exactly the three
PCI slots, the identities are the type-specific strings, and dropping the
address-less device leaves the map unchanged. -/
theorem parse_devices_characterization_witness :
    parse_devices_from_dom_def rootWit
        = [("0x05", "disk:/nfs/img:vdb"), ("0x06", "rng:/dev/urandom"),
           ("0x03", "interface:ethernet:52:54:00:aa:bb:cc:tap0")] ∧
      parse_devices_from_dom_def rootWit
        = parseDeviceList [] ((devicesChildren rootWit).filter
            (fun dv => (pciSlot dv).isSome)) :=
  ⟨by decide, (parse_devices_characterization rootWit).2⟩

end LibvirtTests
